import Mathlib

/-
Verification of the insights caching and generation core of the
LinkedIn-Data-Dashboard repository.

The embedded code comes from:
  * src/utils/cache_manager.py   (CacheManager: key derivation, load, save, clear)
  * src/utils/ai_generator.py    (InsightsGenerator: prompt assembly, generation)
  * src/pages/01_AI_Insights.py  (the inline orchestration of cache + generator)

Modelling conventions:
  * Python strings are Lean `String`s; Python `sorted` on strings compares
    lexicographically by Unicode code point, embedded here as `charListLe`
    on the underlying character lists.
  * `hashlib.md5(...).hexdigest()` is an external library function; it is
    embedded as an explicit parameter `md5hex : String → String`, so every
    theorem holds for the real digest function in particular.
  * The cache directory is embedded as an association list from file names
    to file data.  A well-formed cache document is `FileData.valid`; bytes
    that decode as UTF-8 but fail JSON parsing, and files whose read raises
    `IOError`, are `FileData.badJson` (both caught by the source's
    `except (json.JSONDecodeError, IOError)`); bytes that are not valid
    UTF-8 are `FileData.badUtf8`, whose `UnicodeDecodeError` that clause
    does not catch, so `load_insights` returns an `Except` and propagates
    it as `Except.error`.  `datetime.now().isoformat()` is an explicit
    `now` argument threaded into `save_insights`.
  * A pandas DataFrame row iteration (`iterrows`) yields pairs of the
    row's index label and the row itself, embedded as `List (Nat × Post)`;
    a missing (NaN) text field rendered through an f-string prints as
    "nan", embedded by `pyStr` on `Option String`.
-/

/-! ## Python string ordering (code-point lexicographic, as used by `sorted`) -/

/-- Lexicographic comparison of character lists by code point; this is the
order Python's `sorted` uses on strings. -/
def charListLe : List Char → List Char → Bool
  | [], _ => true
  | _ :: _, [] => false
  | a :: as, b :: bs =>
    if a < b then true
    else if b < a then false
    else charListLe as bs

/-- Python string `<=`, via the underlying character lists. -/
def strLeB (a b : String) : Bool := charListLe a.data b.data

/-- Embedding of Python's `sorted` on a list of strings. -/
def pySorted (l : List String) : List String :=
  List.insertionSort (fun a b => strLeB a b = true) l

/-- Embedding of Python's `sep.join(parts)`. -/
def pyJoin (sep : String) : List String → String
  | [] => ""
  | [x] => x
  | x :: y :: rest => x ++ sep ++ pyJoin sep (y :: rest)

/-! ## Cache key derivation (`CacheManager._get_cache_key`) -/

/-- The extra-filters map `additional_filters : Dict[str, Any]`; values are
represented by their JSON serialization. -/
def Filters : Type := List (String × String)

instance : DecidableEq Filters := by
  unfold Filters
  infer_instance

/-- Python truthiness of the `additional_filters` argument: `None` and the
empty dict are falsy (`if additional_filters:`). -/
def filtersTruthy : Option Filters → Bool
  | none => false
  | some l => !(List.isEmpty l)

/-- A lowercase hexadecimal digit, as `json.dumps` emits in `\uXXXX`. -/
def hexDigitChar (n : Nat) : Char :=
  if n < 10 then Char.ofNat (48 + n) else Char.ofNat (87 + n)

/-- Four lowercase hex digits of a code unit below 2^16. -/
def hex4 (n : Nat) : String :=
  String.mk [hexDigitChar (n / 4096 % 16), hexDigitChar (n / 256 % 16),
             hexDigitChar (n / 16 % 16), hexDigitChar (n % 16)]

/-- Escaping of one character inside a JSON string literal, as
`json.dumps` does with its default `ensure_ascii=True`: the two-character
escapes for quote, backslash and the usual control characters, `\uXXXX`
for other control and all non-ASCII characters (a surrogate pair above
the basic multilingual plane), and the character itself otherwise. -/
def jsonEscapeChar (c : Char) : String :=
  if c = '"' then "\\\""
  else if c = '\\' then "\\\\"
  else if c = Char.ofNat 8 then "\\b"
  else if c = Char.ofNat 9 then "\\t"
  else if c = Char.ofNat 10 then "\\n"
  else if c = Char.ofNat 12 then "\\f"
  else if c = Char.ofNat 13 then "\\r"
  else if c.toNat < 32 then "\\u" ++ hex4 c.toNat
  else if c.toNat < 127 then String.mk [c]
  else if c.toNat < 65536 then "\\u" ++ hex4 c.toNat
  else
    let cp := c.toNat - 65536
    "\\u" ++ hex4 (55296 + cp / 1024) ++ "\\u" ++ hex4 (56320 + cp % 1024)

/-- The body of a JSON string literal under `ensure_ascii=True`. -/
def jsonEscape (s : String) : String :=
  String.join (s.data.map jsonEscapeChar)

/-- Embedding of `json.dumps(additional_filters, sort_keys=True)`: a JSON
object literal with the keys escaped and in sorted order and the default
separators.  The dict values are `Any`; the embedding represents each
value by its serialized JSON fragment, so only the keys are escaped
here. -/
def jsonDumpsSortKeys (l : Filters) : String :=
  let sortedPairs := List.insertionSort (fun a b : String × String => strLeB a.1 b.1 = true) l
  "\x7b" ++ pyJoin ", " (sortedPairs.map (fun kv => "\"" ++ jsonEscape kv.1 ++ "\": " ++ kv.2)) ++ "\x7d"

/-- The string hashed by `_get_cache_key` (cache_manager.py lines 27-30):
`f"{category}|{'|'.join(sorted(authors))}"`, extended with
`f"|{json.dumps(additional_filters, sort_keys=True)}"` when the filters
argument is truthy. -/
def cacheKeyPrehash (category : String) (authors : List String)
    (additional_filters : Option Filters) : String :=
  let filter_str := category ++ "|" ++ pyJoin "|" (pySorted authors)
  if filtersTruthy additional_filters then
    filter_str ++ "|" ++ jsonDumpsSortKeys (additional_filters.getD [])
  else
    filter_str

/-- `CacheManager._get_cache_key` (cache_manager.py lines 20-34): the MD5 hex
digest of the pre-hash string.  The digest function is a parameter. -/
def getCacheKey (md5hex : String → String) (category : String) (authors : List String)
    (additional_filters : Option Filters) : String :=
  md5hex (cacheKeyPrehash category authors additional_filters)

/-- `CacheManager.get_cache_file` (cache_manager.py lines 36-38): the file
name `f"{cache_key}.json"` inside the cache directory. -/
def getCacheFile (cache_key : String) : String :=
  cache_key ++ ".json"

/-! ## The on-disk cache store (`CacheManager` state) -/

/-- The contents of one file in the cache directory, split by how the
`json.load` in `load_insights` behaves on it:
  * `valid` — the bytes decode as UTF-8 and parse as a cache document;
  * `badJson` — the bytes decode as UTF-8 but fail JSON parsing
    (`json.JSONDecodeError`), or reading the file raises `IOError`; both
    are caught by `except (json.JSONDecodeError, IOError)`;
  * `badUtf8` — the bytes are not valid UTF-8, so reading through
    `open(..., encoding="utf-8")` raises `UnicodeDecodeError`, which that
    `except` clause does not catch. -/
inductive FileData (α : Type) where
  | valid (entry : α)
  | badJson
  | badUtf8
deriving DecidableEq

/-- A Python exception that escapes `load_insights`. -/
inductive PyException where
  | unicodeDecodeError
deriving DecidableEq

/-- The cache document written by `save_insights` (cache_manager.py lines
71-77); `insights` is the caller-supplied document, of arbitrary type. -/
structure CacheEntry (α : Type) where
  category : String
  authors : List String
  filters : Filters
  generated_at : String
  insights : α
deriving DecidableEq

/-- The cache directory, as a finite map from file names to file data. -/
def Store (α : Type) : Type := List (String × FileData (CacheEntry α))

instance (α : Type) [DecidableEq α] : DecidableEq (Store α) := by
  unfold Store
  infer_instance

/-- File lookup by name in the cache directory. -/
def storeLookup {α : Type} (name : String) : Store α → Option (FileData (CacheEntry α))
  | [] => none
  | (n, d) :: rest => if n = name then some d else storeLookup name rest

/-- Writing a file: `open(cache_file, "w")` truncates an existing file of
the same name, so insertion replaces any entry with the same name. -/
def storeInsert {α : Type} (name : String) (d : FileData (CacheEntry α)) :
    Store α → Store α
  | [] => [(name, d)]
  | (n, v) :: rest =>
    if n = name then (name, d) :: rest else (n, v) :: storeInsert name d rest

/-- `CacheManager.load_insights` (cache_manager.py lines 40-57): derive the
key; return the parsed document when the file exists and parses, `None`
when the file is absent, and `None` when the file raises
`json.JSONDecodeError` or `IOError` — those two are the only exception
types the `except` clause catches.  A file holding invalid-UTF-8 bytes
makes `json.load` raise `UnicodeDecodeError`, which is neither a
`json.JSONDecodeError` nor an `IOError` and therefore propagates to the
caller, embedded as the `Except.error` result. -/
def load_insights {α : Type} (md5hex : String → String) (store : Store α)
    (category : String) (authors : List String)
    (additional_filters : Option Filters) :
    Except PyException (Option (CacheEntry α)) :=
  let cache_key := getCacheKey md5hex category authors additional_filters
  match storeLookup (getCacheFile cache_key) store with
  | some (FileData.valid entry) => Except.ok (some entry)
  | some FileData.badJson => Except.ok none
  | some FileData.badUtf8 => Except.error PyException.unicodeDecodeError
  | none => Except.ok none

/-- `CacheManager.save_insights` (cache_manager.py lines 59-83): build the
cache document (filters defaulted to the empty map, `generated_at` the
current time) and write it under the derived key, returning `True`.  The
`IOError` branch (return `False`, store unchanged) is outside this model:
the embedded filesystem write always succeeds. -/
def save_insights {α : Type} (md5hex : String → String) (store : Store α)
    (category : String) (authors : List String) (insights : α)
    (additional_filters : Option Filters) (now : String) : Bool × Store α :=
  let cache_key := getCacheKey md5hex category authors additional_filters
  let cache_data : CacheEntry α :=
    { category := category
      authors := authors
      filters := additional_filters.getD []
      generated_at := now
      insights := insights }
  (true, storeInsert (getCacheFile cache_key) (FileData.valid cache_data) store)

/-- The glob pattern `*.json` of `clear_cache` and `get_cache_info`: a file
name matches exactly when it ends with `.json`. -/
def matchesJsonGlob (name : String) : Bool :=
  List.isSuffixOf ".json".data name.data

/-- `CacheManager.clear_cache` (cache_manager.py lines 85-88): unlink every
file matching `*.json` in the cache directory. -/
def clear_cache {α : Type} (store : Store α) : Store α :=
  store.filter (fun f => !(matchesJsonGlob f.1))

/-! ## The insights generator (`InsightsGenerator`, ai_generator.py) -/

/-- One row of the top-posts DataFrame, as consumed by the generator.
`post_text` and `post_url` may be missing (pandas NaN), hence `Option`;
`engagement` is the integer engagement score. -/
structure Post where
  author : String
  engagement : Int
  primary_category : String
  post_text : Option String
  post_url : Option String
deriving DecidableEq

/-- Rendering a DataFrame cell through an f-string: a missing value (NaN)
prints as "nan", a present string prints as itself. -/
def pyStr : Option String → String
  | none => "nan"
  | some t => t

/-- One record of `posts_analyzed`: the five selected columns after
`.fillna("")`, so the optional fields are coerced to the empty string. -/
structure PostRecord where
  author : String
  engagement : Int
  primary_category : String
  post_text : String
  post_url : String
deriving DecidableEq

/-- `top_posts[["author", ...]].fillna("").to_dict("records")` applied to
one row (ai_generator.py lines 95-97). -/
def toRecord (p : Post) : PostRecord :=
  { author := p.author
    engagement := p.engagement
    primary_category := p.primary_category
    post_text := (p.post_text).getD ""
    post_url := (p.post_url).getD "" }

/-- The structured insights dict returned by `generate_insights`
(ai_generator.py lines 91-98). -/
structure Insights where
  category : String
  post_count : Nat
  summary : String
  posts_analyzed : List PostRecord
deriving DecidableEq

/-- Outcome of one `client.models.generate_content` call: a response whose
`.text` may be empty/absent, or a raised exception. -/
inductive GenResult where
  | ok (text : Option String)
  | err (msg : String)

/-- The block emitted for one DataFrame row `(idx, row)` by
`_prepare_posts_text` (ai_generator.py lines 30-36); note the post number
is `idx + 1` where `idx` is the row's index label from `iterrows`. -/
def postBlock (idx : Nat) (row : Post) : String :=
  "\n---\nPost " ++ toString (idx + 1) ++ ":\n"
    ++ "Author: " ++ row.author ++ "\n"
    ++ "Engagement: " ++ toString row.engagement ++ "\n"
    ++ "Category: " ++ row.primary_category ++ "\n"
    ++ "Text:\n" ++ pyStr row.post_text ++ "\n"

/-- `InsightsGenerator._prepare_posts_text` (ai_generator.py lines 26-38):
the `posts_text += ...` loop over `top_posts.iterrows()`, which yields
(index label, row) pairs in row order. -/
def prepare_posts_text : List (Nat × Post) → String
  | [] => ""
  | (idx, row) :: rest => postBlock idx row ++ prepare_posts_text rest

/-- The prompt built by `generate_insights` (ai_generator.py lines 61-79). -/
def buildPrompt (category : String) (posts_text : String) : String :=
  "Analyze these top LinkedIn posts from the \"" ++ category
    ++ "\" category and provide insights in this exact structure:\n\n"
    ++ posts_text
    ++ "\n\nGenerate a professional insight summary with this structure:\n\n"
    ++ "## What's Trending\n(3-4 bullet points about the main themes you see)\n\n"
    ++ "## Recurring Angles\n(3-4 bullet points about common angles/approaches in these posts)\n\n"
    ++ "## Why These Posts Worked\n(3-4 bullet points explaining what made them successful - engagement, messaging, timing, etc.)\n\n"
    ++ "🧠 **Trend Label:** [One specific trend or shift you identified in 3-5 words]\n\n"
    ++ "Keep the insights concise, actionable, and grounded in what you see in the posts. Use markdown formatting.\n"
    ++ "Make sure insights are valuable for someone trying to understand what's working in the "
    ++ category ++ " space."

/-- `InsightsGenerator.generate_insights` (ai_generator.py lines 40-102),
with the remote client as an explicit function from the prompt to a
`GenResult`.  The second component counts how many times the client was
invoked.  Mirrors the source: fewer than one post returns `None` before
any call; an exception, an absent response text, or an empty response text
yields `None`; otherwise the structured dict is built. -/
def generate_insights (client : String → GenResult) (top_posts : List (Nat × Post))
    (category : String) : Option Insights × Nat :=
  if top_posts.length < 1 then (none, 0)
  else
    let posts_text := prepare_posts_text top_posts
    let prompt := buildPrompt category posts_text
    match client prompt with
    | GenResult.err _ => (none, 1)
    | GenResult.ok text =>
      let summary_text : Option String :=
        match text with
        | none => none
        | some t => if t = "" then none else some t
      match summary_text with
      | none => (none, 1)
      | some t =>
        (some { category := category
                post_count := top_posts.length
                summary := t
                posts_analyzed := top_posts.map (fun p => toRecord p.2) }, 1)

/-! ## The orchestration of cache and generator (pages/01_AI_Insights.py) -/

/-- The user-visible outcome of one orchestration pass for one category. -/
inductive OrchOutcome where
  | insufficientData (postCount : Nat)
  | fromCache (insights : Insights)
  | generated (insights : Insights)
  | generationFailed
deriving DecidableEq

/-- The per-category orchestration inlined in pages/01_AI_Insights.py
(single-category branch lines 130-167, tabs branch lines 201-243; both run
the same cache/generate/save flow): too few posts short-circuits; a cache
hit returns the cached insights and writes nothing; on a miss the
generator runs, a successful result is saved, and a failed generation is
reported without touching the cache.  The `load_insights` call sits
outside the page's `try` block in both branches, so an exception it
raises propagates out of the pass, embedded as `Except.error`. -/
def orchestrate (md5hex : String → String) (client : String → GenResult)
    (store : Store Insights) (category : String) (selected_authors : List String)
    (top_posts : List (Nat × Post)) (now : String) :
    Except PyException (OrchOutcome × Store Insights) :=
  if top_posts.length < 1 then
    Except.ok (OrchOutcome.insufficientData top_posts.length, store)
  else
    match load_insights md5hex store category selected_authors none with
    | Except.error e => Except.error e
    | Except.ok (some cached) => Except.ok (OrchOutcome.fromCache cached.insights, store)
    | Except.ok none =>
      match (generate_insights client top_posts category).1 with
      | some insights =>
        Except.ok (OrchOutcome.generated insights,
          (save_insights md5hex store category selected_authors insights none now).2)
      | none => Except.ok (OrchOutcome.generationFailed, store)

/-! ## Specification-side definition for the prompt-numbering claim -/

/-- The block the specification describes for the i-th post **in input
order**: identical to `postBlock` except that the number is the 1-based
input position, independent of any DataFrame index label. -/
def specBlock (n : Nat) (p : Post) : String :=
  "\n---\nPost " ++ toString n ++ ":\n"
    ++ "Author: " ++ p.author ++ "\n"
    ++ "Engagement: " ++ toString p.engagement ++ "\n"
    ++ "Category: " ++ p.primary_category ++ "\n"
    ++ "Text:\n" ++ pyStr p.post_text ++ "\n"

/-- Helper: spec-side blocks numbered from `n`. -/
def specPostsTextFrom (n : Nat) : List Post → String
  | [] => ""
  | p :: rest => specBlock n p ++ specPostsTextFrom (n + 1) rest

/-- Modelled from the spec (section 4.3, "Prompt assembly"): for each post
in input order (1-indexed), emit a block containing author, integer
engagement, category, and full post text; concatenate blocks with
separators. -/
def prepare_posts_text_spec (posts : List Post) : String :=
  specPostsTextFrom 1 posts

/-! ## Order properties of the Python string comparison -/

theorem charListLe_total : ∀ as bs : List Char,
    charListLe as bs = true ∨ charListLe bs as = true := by
  intro as
  induction as with
  | nil => intro bs; left; rfl
  | cons a as ih =>
    intro bs
    cases bs with
    | nil => right; rfl
    | cons b bs =>
      rcases lt_trichotomy a b with h | h | h
      · left; simp [charListLe, h]
      · subst h
        rcases ih bs with h2 | h2
        · left; simp [charListLe, lt_irrefl, h2]
        · right; simp [charListLe, lt_irrefl, h2]
      · right; simp [charListLe, h]

theorem charListLe_trans : ∀ as bs cs : List Char,
    charListLe as bs = true → charListLe bs cs = true → charListLe as cs = true := by
  intro as
  induction as with
  | nil => intro bs cs _ _; rfl
  | cons a as ih =>
    intro bs cs h1 h2
    cases bs with
    | nil => simp [charListLe] at h1
    | cons b bs =>
      cases cs with
      | nil => simp [charListLe] at h2
      | cons c cs =>
        simp only [charListLe] at h1 h2 ⊢
        by_cases hab : a < b
        · by_cases hbc : b < c
          · simp [lt_trans hab hbc]
          · by_cases hcb : c < b
            · simp [hbc, hcb] at h2
            · have hbc' : b = c := le_antisymm (not_lt.mp hcb) (not_lt.mp hbc)
              subst hbc'
              simp [hab]
        · by_cases hba : b < a
          · simp [hab, hba] at h1
          · have hab' : a = b := le_antisymm (not_lt.mp hba) (not_lt.mp hab)
            subst hab'
            simp only [if_neg (lt_irrefl a)] at h1
            by_cases hac : a < c
            · simp [hac]
            · by_cases hca : c < a
              · simp [hac, hca] at h2
              · have hac' : a = c := le_antisymm (not_lt.mp hca) (not_lt.mp hac)
                subst hac'
                simp only [if_neg (lt_irrefl a)] at h2 ⊢
                exact ih bs cs h1 h2

theorem charListLe_antisymm : ∀ as bs : List Char,
    charListLe as bs = true → charListLe bs as = true → as = bs := by
  intro as
  induction as with
  | nil =>
    intro bs _ h2
    cases bs with
    | nil => rfl
    | cons b bs => simp [charListLe] at h2
  | cons a as ih =>
    intro bs h1 h2
    cases bs with
    | nil => simp [charListLe] at h1
    | cons b bs =>
      simp only [charListLe] at h1 h2
      by_cases hab : a < b
      · simp [hab, asymm hab] at h2
      · by_cases hba : b < a
        · simp [hab, hba] at h1
        · have hab' : a = b := le_antisymm (not_lt.mp hba) (not_lt.mp hab)
          subst hab'
          simp only [if_neg (lt_irrefl a)] at h1 h2
          exact congrArg (a :: ·) (ih bs h1 h2)

theorem strLeB_total (a b : String) : strLeB a b = true ∨ strLeB b a = true :=
  charListLe_total a.data b.data

theorem strLeB_trans (a b c : String) (h1 : strLeB a b = true) (h2 : strLeB b c = true) :
    strLeB a c = true :=
  charListLe_trans a.data b.data c.data h1 h2

theorem strLeB_antisymm (a b : String) (h1 : strLeB a b = true) (h2 : strLeB b a = true) :
    a = b :=
  congrArg String.mk (charListLe_antisymm a.data b.data h1 h2)

/-! ## Properties of `pySorted` -/

theorem pySorted_perm (l : List String) : List.Perm (pySorted l) l :=
  List.perm_insertionSort (fun a b => strLeB a b = true) l

theorem pySorted_sorted (l : List String) :
    List.Sorted (fun a b => strLeB a b = true) (pySorted l) :=
  @List.sorted_insertionSort String (fun a b => strLeB a b = true) _
    ⟨fun a b => strLeB_total a b⟩ ⟨fun a b c => strLeB_trans a b c⟩ l

theorem pySorted_eq_of_perm (a b : List String) (h : List.Perm a b) :
    pySorted a = pySorted b :=
  @List.eq_of_perm_of_sorted String (fun a b => strLeB a b = true)
    ⟨fun a b => strLeB_antisymm a b⟩ _ _
    (((pySorted_perm a).trans h).trans (pySorted_perm b).symm)
    (pySorted_sorted a) (pySorted_sorted b)

/-! ## Properties of the store operations -/

theorem storeLookup_insert_self {α : Type} (name : String)
    (d : FileData (CacheEntry α)) : ∀ s : Store α,
    storeLookup name (storeInsert name d s) = some d := by
  intro s
  induction s with
  | nil => simp [storeInsert, storeLookup]
  | cons hd rest ih =>
    obtain ⟨n, v⟩ := hd
    by_cases h : n = name
    · simp [storeInsert, storeLookup, h]
    · simp [storeInsert, storeLookup, h, ih]

theorem storeInsert_insert_self {α : Type} (name : String)
    (d1 d2 : FileData (CacheEntry α)) : ∀ s : Store α,
    storeInsert name d2 (storeInsert name d1 s) = storeInsert name d2 s := by
  intro s
  induction s with
  | nil => simp [storeInsert]
  | cons hd rest ih =>
    obtain ⟨n, v⟩ := hd
    by_cases h : n = name
    · simp [storeInsert, h]
    · simp [storeInsert, h, ih]

theorem clear_cache_idem {α : Type} (s : Store α) :
    clear_cache (clear_cache s) = clear_cache s := by
  induction s with
  | nil => rfl
  | cons hd rest ih =>
    by_cases h : matchesJsonGlob hd.1 = true
    · simp [clear_cache, List.filter, h]
    · have h' : (!matchesJsonGlob hd.1) = true := by
        cases hm : matchesJsonGlob hd.1
        · rfl
        · exact absurd hm h
      simp [clear_cache, List.filter, h']

theorem storeLookup_clear {α : Type} (name : String) (h : matchesJsonGlob name = true) :
    ∀ s : Store α, storeLookup name (clear_cache s) = none := by
  intro s
  induction s with
  | nil => rfl
  | cons hd rest ih =>
    by_cases hm : matchesJsonGlob hd.1 = true
    · simpa [clear_cache, List.filter, hm] using ih
    · have h' : (!matchesJsonGlob hd.1) = true := by
        cases hx : matchesJsonGlob hd.1
        · rfl
        · exact absurd hx hm
      have hne : hd.1 ≠ name := by
        intro he
        rw [he] at hm
        exact hm h
      simp only [clear_cache, List.filter, h'] at ih ⊢
      obtain ⟨n, v⟩ := hd
      simp only [storeLookup, if_neg hne]
      simpa [clear_cache] using ih

/-! ## Injectivity of the pre-hash string on pipe-free components -/

/-- A string is pipe-free when it contains no `|` character (the delimiter
of the pre-hash string). -/
def pipeFree (s : String) : Prop := '|' ∉ s.data

instance (s : String) : Decidable (pipeFree s) := by
  unfold pipeFree
  infer_instance

theorem append_pipe_inj : ∀ a b s t : List Char, '|' ∉ a → '|' ∉ b →
    a ++ '|' :: s = b ++ '|' :: t → a = b ∧ s = t := by
  intro a
  induction a with
  | nil =>
    intro b s t _ hb he
    cases b with
    | nil => simpa using he
    | cons c bs =>
      simp only [List.nil_append, List.cons_append, List.cons.injEq] at he
      exact absurd (he.1 ▸ List.mem_cons_self c bs) (he.1 ▸ hb)
  | cons c as ih =>
    intro b s t ha hb he
    cases b with
    | nil =>
      simp only [List.cons_append, List.nil_append, List.cons.injEq] at he
      exact absurd (he.1 ▸ List.mem_cons_self c as) (fun hx => ha (he.1 ▸ hx))
    | cons d bs =>
      simp only [List.cons_append, List.cons.injEq] at he
      obtain ⟨hcd, he'⟩ := he
      have ha' : '|' ∉ as := fun hx => ha (List.mem_cons_of_mem c hx)
      have hb' : '|' ∉ bs := fun hx => hb (List.mem_cons_of_mem d hx)
      obtain ⟨h1, h2⟩ := ih bs s t ha' hb' he'
      exact ⟨by rw [hcd, h1], h2⟩

theorem pyJoin_pipe_data (x y : String) (rest : List String) :
    (pyJoin "|" (x :: y :: rest)).data = x.data ++ '|' :: (pyJoin "|" (y :: rest)).data := by
  show (x ++ "|" ++ pyJoin "|" (y :: rest)).data = _
  rw [String.data_append, String.data_append, List.append_assoc]
  rfl

theorem pipe_mem_pyJoin_cons (x y : String) (rest : List String) :
    '|' ∈ (pyJoin "|" (x :: y :: rest)).data := by
  rw [pyJoin_pipe_data]
  exact List.mem_append_right _ (List.mem_cons_self '|' _)

theorem pyJoin_pipe_inj : ∀ as bs : List String, as ≠ [] → bs ≠ [] →
    (∀ s ∈ as, pipeFree s) → (∀ s ∈ bs, pipeFree s) →
    pyJoin "|" as = pyJoin "|" bs → as = bs := by
  intro as
  induction as with
  | nil => intro bs h; exact absurd rfl h
  | cons x as ih =>
    intro bs _ hbs hpa hpb he
    cases bs with
    | nil => exact absurd rfl hbs
    | cons y ys =>
      cases as with
      | nil =>
        cases ys with
        | nil =>
          simp only [pyJoin] at he
          rw [he]
        | cons y2 ys' =>
          exfalso
          have hx : pyJoin "|" [x] = x := rfl
          rw [hx] at he
          have : '|' ∈ x.data := by
            rw [he]
            exact pipe_mem_pyJoin_cons y y2 ys'
          exact hpa x (List.mem_cons_self x []) this
      | cons x2 xs' =>
        cases ys with
        | nil =>
          exfalso
          have hy : pyJoin "|" [y] = y := rfl
          rw [hy] at he
          have : '|' ∈ y.data := by
            rw [← he]
            exact pipe_mem_pyJoin_cons x x2 xs'
          exact hpb y (List.mem_cons_self y []) this
        | cons y2 ys' =>
          have hdata : (pyJoin "|" (x :: x2 :: xs')).data = (pyJoin "|" (y :: y2 :: ys')).data :=
            congrArg String.data he
          rw [pyJoin_pipe_data, pyJoin_pipe_data] at hdata
          obtain ⟨h1, h2⟩ := append_pipe_inj x.data y.data _ _
            (hpa x (List.mem_cons_self x _)) (hpb y (List.mem_cons_self y _)) hdata
          have hx : x = y := congrArg String.mk h1
          have hrest : x2 :: xs' = y2 :: ys' := by
            apply ih (y2 :: ys') (by simp) (by simp)
              (fun s hs => hpa s (List.mem_cons_of_mem x hs))
              (fun s hs => hpb s (List.mem_cons_of_mem y hs))
            exact congrArg String.mk h2
          rw [hx, hrest]

theorem cacheKeyPrehash_none_data (category : String) (authors : List String) :
    (cacheKeyPrehash category authors none).data
      = category.data ++ '|' :: (pyJoin "|" (pySorted authors)).data := by
  show (category ++ "|" ++ pyJoin "|" (pySorted authors)).data = _
  rw [String.data_append, String.data_append, List.append_assoc]
  rfl

theorem pySorted_pipeFree (authors : List String) (h : ∀ s ∈ authors, pipeFree s) :
    ∀ s ∈ pySorted authors, pipeFree s :=
  fun s hs => h s ((pySorted_perm authors).mem_iff.mp hs)

theorem pySorted_ne_nil (authors : List String) (h : authors ≠ []) :
    pySorted authors ≠ [] := by
  intro hnil
  have hp := pySorted_perm authors
  rw [hnil] at hp
  exact h hp.symm.eq_nil

/-! ## Enumeration lemma for the prompt-numbering claim -/

theorem prepare_posts_text_enumFrom (posts : List Post) : ∀ n : Nat,
    prepare_posts_text (List.enumFrom n posts) = specPostsTextFrom (n + 1) posts := by
  induction posts with
  | nil => intro n; rfl
  | cons p rest ih =>
    intro n
    show postBlock n p ++ prepare_posts_text (List.enumFrom (n + 1) rest)
      = specBlock (n + 1) p ++ specPostsTextFrom (n + 1 + 1) rest
    rw [ih (n + 1)]
    rfl

/-- Shared helper: loading right after saving with the same arguments
returns exactly the entry that was written. -/
theorem load_after_save {α : Type} (md5hex : String → String)
    (store : Store α) (category : String) (authors : List String) (insights : α)
    (af : Option Filters) (now : String) :
    load_insights md5hex (save_insights md5hex store category authors insights af now).2
        category authors af
      = Except.ok (some { category := category, authors := authors, filters := af.getD [],
                          generated_at := now, insights := insights }) := by
  simp [load_insights, save_insights, storeLookup_insert_self]

/-! ## Claim theorems -/

/-- Claim C1: for every category string, every list of author strings, and
every (possibly absent) extra-filters map, `_get_cache_key` returns the
same key on repeated calls with identical inputs, and its result is
invariant under any permutation of the authors list. -/
theorem getCacheKey_stable_and_perm_invariant
    (md5hex : String → String) (category : String) (a1 a2 : List String)
    (af : Option Filters) (hperm : List.Perm a1 a2) :
    getCacheKey md5hex category a1 af = getCacheKey md5hex category a1 af ∧
    getCacheKey md5hex category a1 af = getCacheKey md5hex category a2 af := by
  refine ⟨rfl, ?_⟩
  unfold getCacheKey cacheKeyPrehash
  rw [pySorted_eq_of_perm a1 a2 hperm]

/-- Witness for claim C1 at the spec's example: the key for
("Leadership", ["Bob", "Alice"]) equals the key for
("Leadership", ["Alice", "Bob"]). -/
theorem getCacheKey_stable_and_perm_invariant_witness :
    getCacheKey (fun s => s) "Leadership" ["Bob", "Alice"] none
      = getCacheKey (fun s => s) "Leadership" ["Alice", "Bob"] none :=
  (getCacheKey_stable_and_perm_invariant (fun s => s) "Leadership" ["Bob", "Alice"]
    ["Alice", "Bob"] none (by decide)).2

/-- Claim C2: for every category, author list, extra-filters map, and
insights document, `save_insights` followed by `load_insights` with the
same arguments returns a cache entry whose `insights` field equals the
saved document and whose `generated_at` field is set (to the save-time
timestamp). -/
theorem save_then_load_roundtrip {α : Type} (md5hex : String → String)
    (store : Store α) (category : String) (authors : List String) (insights : α)
    (af : Option Filters) (now : String) :
    load_insights md5hex (save_insights md5hex store category authors insights af now).2
        category authors af
      = Except.ok (some { category := category, authors := authors, filters := af.getD [],
                          generated_at := now, insights := insights }) :=
  load_after_save md5hex store category authors insights af now

/-- Claim C4 counterexample: a cache file at the valid derived path for
("A", ["B"]) holding invalid-UTF-8 bytes makes `load_insights` raise: the
`UnicodeDecodeError` from `json.load` is neither a `json.JSONDecodeError`
nor an `IOError`, so the `except` clause lets it propagate instead of
returning absent. -/
theorem load_insights_invalid_utf8_raises :
    load_insights (fun s => s) ([("A|B.json", FileData.badUtf8)] : Store Unit)
        "A" ["B"] none
      = Except.error PyException.unicodeDecodeError ∧
    load_insights (fun s => s) ([("A|B.json", FileData.badUtf8)] : Store Unit)
        "A" ["B"] none
      ≠ Except.ok none :=
  ⟨rfl, fun h => Except.noConfusion h⟩

/-- Claim C4 (amended): for every store state whose file at the derived
cache path holds bytes that decode as UTF-8 but fail JSON parsing, or
whose read raises `IOError`, `load_insights` returns absent without
propagating an exception; but a file holding invalid-UTF-8 bytes raises
`UnicodeDecodeError`, which `except (json.JSONDecodeError, IOError)` does
not catch, and `load_insights` propagates it. -/
theorem load_insights_corrupt_is_miss {α : Type} (md5hex : String → String)
    (store : Store α) (category : String) (authors : List String) (af : Option Filters)
    (h : storeLookup (getCacheFile (getCacheKey md5hex category authors af)) store
        = some FileData.badJson) :
    load_insights md5hex store category authors af = Except.ok none := by
  simp [load_insights, h]

/-- Witness for amended claim C4: a store holding truncated JSON at the
derived path for ("A", ["B"]) under the identity digest yields a cache
miss. -/
theorem load_insights_corrupt_is_miss_witness :
    load_insights (fun s => s) ([("A|B.json", FileData.badJson)] : Store Unit)
      "A" ["B"] none = Except.ok none :=
  load_insights_corrupt_is_miss (fun s => s) [("A|B.json", FileData.badJson)]
    "A" ["B"] none (by decide)

/-- Claim C6: for every category string and every remote client,
`generate_insights` applied to an empty top-posts selection returns `none`
immediately and invokes the client zero times. -/
theorem generate_insights_empty_returns_none_no_call
    (client : String → GenResult) (category : String) :
    generate_insights client [] category = (none, 0) := rfl

/-- Claim C9: `clear_cache` deletes every persisted `*.json` document from
the store, is idempotent, and clearing an already-empty store is a no-op. -/
theorem clear_cache_deletes_all_and_idem {α : Type} (store : Store α) :
    clear_cache (clear_cache store) = clear_cache store ∧
    clear_cache ([] : Store α) = [] ∧
    (∀ name : String, matchesJsonGlob name = true →
      storeLookup name (clear_cache store) = none) :=
  ⟨clear_cache_idem store, rfl, fun name h => storeLookup_clear name h store⟩

/-- Witness for claim C9: clearing a store holding one cache document
removes it. -/
theorem clear_cache_deletes_all_and_idem_witness :
    storeLookup "deadbeef.json"
      (clear_cache ([("deadbeef.json", FileData.badJson)] : Store Unit)) = none :=
  (clear_cache_deletes_all_and_idem ([("deadbeef.json", FileData.badJson)] : Store Unit)).2.2
    "deadbeef.json" (by decide)

/-- Claim C10: saving `i1` and then `i2` for the same (category, authors,
filters) overwrites: a subsequent load returns the entry built from `i2`
with `i2`'s timestamp, and the store equals the one obtained by saving
`i2` alone, so the entry built from `i1` is no longer retrievable. -/
theorem save_insights_last_write_wins {α : Type} (md5hex : String → String)
    (store : Store α) (category : String) (authors : List String)
    (i1 i2 : α) (af : Option Filters) (t1 t2 : String) :
    load_insights md5hex
        (save_insights md5hex (save_insights md5hex store category authors i1 af t1).2
          category authors i2 af t2).2 category authors af
      = Except.ok (some { category := category, authors := authors, filters := af.getD [],
                          generated_at := t2, insights := i2 }) ∧
    (save_insights md5hex (save_insights md5hex store category authors i1 af t1).2
        category authors i2 af t2).2
      = (save_insights md5hex store category authors i2 af t2).2 := by
  constructor
  · exact load_after_save md5hex _ category authors i2 af t2
  · simp [save_insights, storeInsert_insert_self]

/-- Claim C3 counterexample: two inputs that differ in both category and
author set produce the very same pre-hash concatenated string (the pipe
delimiter is not escaped), hence the same key under any digest, refuting
the claimed injectivity of the pre-hash. -/
theorem cacheKeyPrehash_collision :
    cacheKeyPrehash "A|B" ["C"] none = cacheKeyPrehash "A" ["B", "C"] none ∧
    ("A|B" : String) ≠ "A" ∧ (["C"] : List String) ≠ ["B", "C"] :=
  ⟨by decide, by decide, by decide⟩

/-- Claim C3 (amended): two requests agreeing on category, author set
(regardless of order) and filters map to the same key; and, restricted to
pipe-free categories and authors with non-empty author lists and no extra
filters, the pre-hash string determines the category and the author
multiset exactly. -/
theorem cacheKeyPrehash_agree_iff
    (c1 c2 : String) (a1 a2 : List String)
    (hc1 : pipeFree c1) (hc2 : pipeFree c2)
    (ha1 : ∀ s ∈ a1, pipeFree s) (ha2 : ∀ s ∈ a2, pipeFree s)
    (hn1 : a1 ≠ []) (hn2 : a2 ≠ []) :
    cacheKeyPrehash c1 a1 none = cacheKeyPrehash c2 a2 none
      ↔ (c1 = c2 ∧ List.Perm a1 a2) := by
  constructor
  · intro he
    have hdata := congrArg String.data he
    rw [cacheKeyPrehash_none_data, cacheKeyPrehash_none_data] at hdata
    obtain ⟨h1, h2⟩ := append_pipe_inj c1.data c2.data _ _ hc1 hc2 hdata
    have hsorted : pySorted a1 = pySorted a2 :=
      pyJoin_pipe_inj (pySorted a1) (pySorted a2)
        (pySorted_ne_nil a1 hn1) (pySorted_ne_nil a2 hn2)
        (pySorted_pipeFree a1 ha1) (pySorted_pipeFree a2 ha2)
        (congrArg String.mk h2)
    refine ⟨congrArg String.mk h1, ?_⟩
    have p1 := (pySorted_perm a1).symm
    rw [hsorted] at p1
    exact p1.trans (pySorted_perm a2)
  · rintro ⟨hc, hperm⟩
    rw [hc]
    unfold cacheKeyPrehash
    rw [pySorted_eq_of_perm a1 a2 hperm]

/-- Witness for amended claim C3 at a concrete instance. -/
theorem cacheKeyPrehash_agree_iff_witness :
    cacheKeyPrehash "Sales" ["Bob", "Ann"] none = cacheKeyPrehash "Sales" ["Ann", "Bob"] none
      ↔ (("Sales" : String) = "Sales" ∧ List.Perm ["Bob", "Ann"] ["Ann", "Bob"]) :=
  cacheKeyPrehash_agree_iff "Sales" "Sales" ["Bob", "Ann"] ["Ann", "Bob"]
    (by decide) (by decide) (by decide) (by decide) (by decide) (by decide)

/-- Claim C5: on a cache miss with a non-empty top-posts selection, if
generation returns absent the orchestrator reports failure and performs no
cache write — the pass returns the store unchanged, so whatever store the
pass yields, the same request afterwards still misses and would retry
generation. -/
theorem orchestrate_no_write_on_generation_failure
    (md5hex : String → String) (client : String → GenResult) (store : Store Insights)
    (category : String) (authors : List String) (top_posts : List (Nat × Post))
    (now : String)
    (hne : top_posts ≠ [])
    (hmiss : load_insights md5hex store category authors none = Except.ok none)
    (hfail : (generate_insights client top_posts category).1 = none) :
    orchestrate md5hex client store category authors top_posts now
      = Except.ok (OrchOutcome.generationFailed, store) ∧
    (∀ (outcome : OrchOutcome) (s' : Store Insights),
      orchestrate md5hex client store category authors top_posts now
        = Except.ok (outcome, s') →
      load_insights md5hex s' category authors none = Except.ok none) := by
  have hlen : ¬ top_posts.length < 1 := by
    cases top_posts with
    | nil => exact absurd rfl hne
    | cons a l => simp
  have hmain : orchestrate md5hex client store category authors top_posts now
      = Except.ok (OrchOutcome.generationFailed, store) := by
    unfold orchestrate
    rw [if_neg hlen, hmiss, hfail]
  refine ⟨hmain, ?_⟩
  intro outcome s' h
  rw [hmain] at h
  have hs : s' = store := (Prod.mk.injEq _ _ _ _).mp (Except.ok.inj h.symm) |>.2
  rw [hs]
  exact hmiss

/-- Witness for claim C5: an empty model response on an empty cache leaves
the store empty, and that store still misses. -/
theorem orchestrate_no_write_on_generation_failure_witness :
    orchestrate (fun s => s) (fun _ => GenResult.ok none) ([] : Store Insights)
        "Sales" ["Ann"]
        [(0, { author := "Ann", engagement := 120, primary_category := "Sales",
               post_text := some "hello", post_url := none })]
        "2024-01-01T00:00:00"
      = Except.ok (OrchOutcome.generationFailed, []) ∧
    (∀ (outcome : OrchOutcome) (s' : Store Insights),
      orchestrate (fun s => s) (fun _ => GenResult.ok none) ([] : Store Insights)
          "Sales" ["Ann"]
          [(0, { author := "Ann", engagement := 120, primary_category := "Sales",
                 post_text := some "hello", post_url := none })]
          "2024-01-01T00:00:00"
        = Except.ok (outcome, s') →
      load_insights (fun s => s) s' "Sales" ["Ann"] none = Except.ok none) :=
  orchestrate_no_write_on_generation_failure (fun s => s) (fun _ => GenResult.ok none)
    [] "Sales" ["Ann"]
    [(0, { author := "Ann", engagement := 120, primary_category := "Sales",
           post_text := some "hello", post_url := none })]
    "2024-01-01T00:00:00" (List.cons_ne_nil _ _) rfl rfl

/-- Claim C7 counterexample: `_prepare_posts_text` numbers a block by the
row's DataFrame index label plus one, not by its 1-based input position;
a single-post selection whose row label is 5 is emitted as "Post 6", while
the claim requires "Post 1". -/
theorem prepare_posts_text_numbering_counterexample :
    prepare_posts_text
        [(5, { author := "Ann", engagement := 120, primary_category := "Sales",
               post_text := some "Great post", post_url := none })]
      ≠ prepare_posts_text_spec
        [{ author := "Ann", engagement := 120, primary_category := "Sales",
           post_text := some "Great post", post_url := none }] := by
  decide

/-- Claim C7 (amended): `_prepare_posts_text` emits one block per post in
input order containing author, integer engagement, category, and full post
text, numbering each block with the row's index label plus one; when the
selection carries the default positional index 0..n-1 (as `List.enum`
supplies), the i-th block in input order is labeled "Post i" exactly as
claimed. -/
theorem prepare_posts_text_positional_index (posts : List Post) :
    prepare_posts_text (List.enum posts) = prepare_posts_text_spec posts := by
  show prepare_posts_text (List.enumFrom 0 posts) = specPostsTextFrom 1 posts
  exact prepare_posts_text_enumFrom posts 0
